import Mathlib

/-!
Verification development for the sandboxed wasm execution host
(`sc-executor-wasmtime` host functions and the `pallet-contracts` wasm
executable wrapper).

The Rust code is shallowly embedded: machine integers become `Nat` with
explicit `% 2 ^ w` / saturation where the source truncates or saturates,
fallible operations return `Option` / `Except`, linear memories are byte
lists, and external collaborators (the wasmtime VM, the sandbox store's
instantiation routine, the instrumentation pass) are oracle parameters.
-/

/-! ## Bounds checker -/

/-- Width of the host's unsigned word type (`usize` on a 64-bit host). -/
def USIZE_BOUND : Nat := 2 ^ 64

/-- Modelled from the spec: overflow-checked unsigned addition
(`usize::checked_add`): returns the sum unless it would wrap. -/
def checkedAdd (a b : Nat) : Option Nat :=
  if a + b < USIZE_BOUND then some (a + b) else none

/-- Modelled from the spec: the Bounds Checker `util::checked_range`
(its defining file is not in the excerpt; only callers are). Given
`(offset, len, max)` it returns the half-open range `[offset, offset+len)`
iff `offset + len` does not overflow and `offset + len ≤ max`; otherwise
it signals failure. The range is represented as the pair
`(start, end)`. -/
def checked_range (offset len max : Nat) : Option (Nat × Nat) :=
  match checkedAdd offset len with
  | none => none
  | some e => if e ≤ max then some (offset, e) else none

theorem checked_range_eq_some (offset len max : Nat)
    (hle : offset + len ≤ max) (hmax : max < USIZE_BOUND) :
    checked_range offset len max = some (offset, offset + len) := by
  unfold checked_range checkedAdd
  rw [if_pos (lt_of_le_of_lt hle hmax)]
  simp [hle]

theorem checked_range_eq_none (offset len max : Nat) (h : max < offset + len) :
    checked_range offset len max = none := by
  unfold checked_range checkedAdd
  by_cases hov : offset + len < USIZE_BOUND
  · rw [if_pos hov]
    simp
    omega
  · rw [if_neg hov]

/-! ## Sandbox status codes

Modelled from the spec: the numeric status codes (`sp_core::sandbox`) are
not part of the excerpt; the spec only requires that they are pairwise
distinct in-band return values. The concrete values below match the
upstream convention (`-1`, `-2`, `-3` reinterpreted as `u32`). -/

def ERR_OK : Nat := 0

def ERR_OUT_OF_BOUNDS : Nat := 2 ^ 32 - 1

def ERR_EXECUTION : Nat := 2 ^ 32 - 2

def ERR_MODULE : Nat := 2 ^ 32 - 3

/-! ## Byte-buffer primitives

`listSlice l s n` is the `n`-byte read starting at `s`; `writeBytes dst s src`
overwrites `dst[s .. s + src.length)` with `src`. These model the raw
linear-memory copy primitives that `memory_get` / `memory_set` call only
after obtaining a validated range. -/

def listSlice (l : List Nat) (s n : Nat) : List Nat :=
  (l.drop s).take n

def writeBytes (dst : List Nat) (s : Nat) (src : List Nat) : List Nat :=
  dst.take s ++ src ++ dst.drop (s + src.length)

theorem listSlice_length (l : List Nat) (s n : Nat) (h : s + n ≤ l.length) :
    (listSlice l s n).length = n := by
  simp [listSlice]
  omega

theorem writeBytes_length (dst : List Nat) (s : Nat) (src : List Nat)
    (h : s + src.length ≤ dst.length) :
    (writeBytes dst s src).length = dst.length := by
  simp [writeBytes]
  omega

theorem listSlice_writeBytes_self (dst : List Nat) (s : Nat) (src : List Nat)
    (h : s + src.length ≤ dst.length) :
    listSlice (writeBytes dst s src) s src.length = src := by
  have hs : s ≤ dst.length := by omega
  have htake : (dst.take s).length = s := by
    simp [List.length_take]
    omega
  unfold listSlice writeBytes
  rw [List.append_assoc, List.drop_left' htake, List.take_left]

/-! ## Host state and the sandbox `memory_get` / `memory_set` operations

`HostSt` models the slice of `HostState` these operations touch: the
registry of sandboxed guest memories (`sandbox_store`) and the outer
(supervisor) instance's linear memory. Embedded from
`impl Sandbox for HostContext` in `src/client/executor/wasmtime/src/host.rs`. -/

structure HostSt where
  guestMems : List (List Nat)
  supervisor : List Nat
deriving DecidableEq

/-- Embeds `Sandbox::memory_get`: copy `buf_len` bytes of the sandboxed
memory `memory_id` starting at `offset` into supervisor memory at
`buf_ptr`. Range-check failures return the out-of-bounds status in-band;
a missing memory id is a host-call error. -/
def memory_get (st : HostSt) (memory_id offset buf_ptr buf_len : Nat) :
    Except String (Nat × HostSt) :=
  match st.guestMems[memory_id]? with
  | none => .error "memory with the given id is not found in the sandbox store"
  | some sandboxed_memory =>
    match checked_range offset buf_len sandboxed_memory.length with
    | none => .ok (ERR_OUT_OF_BOUNDS, st)
    | some src_range =>
      match checked_range buf_ptr buf_len st.supervisor.length with
      | none => .ok (ERR_OUT_OF_BOUNDS, st)
      | some dst_range =>
        .ok (ERR_OK,
          { st with supervisor :=
              (writeBytes st.supervisor dst_range.1
                (listSlice sandboxed_memory src_range.1
                  (src_range.2 - src_range.1))) })

/-- Embeds `Sandbox::memory_set`: copy `val_len` bytes of supervisor
memory starting at `val_ptr` into the sandboxed memory `memory_id` at
`offset`. The supervisor (source) range is checked first, then the
guest (destination) range, mirroring the source order. -/
def memory_set (st : HostSt) (memory_id offset val_ptr val_len : Nat) :
    Except String (Nat × HostSt) :=
  match st.guestMems[memory_id]? with
  | none => .error "memory with the given id is not found in the sandbox store"
  | some sandboxed_memory =>
    match checked_range val_ptr val_len st.supervisor.length with
    | none => .ok (ERR_OUT_OF_BOUNDS, st)
    | some src_range =>
      match checked_range offset val_len sandboxed_memory.length with
      | none => .ok (ERR_OUT_OF_BOUNDS, st)
      | some dst_range =>
        .ok (ERR_OK,
          { st with guestMems :=
              (st.guestMems.set memory_id
                (writeBytes sandboxed_memory dst_range.1
                  (listSlice st.supervisor src_range.1
                    (dst_range.2 - dst_range.1)))) })

/-! ## Reentrant supervisor dispatch

Embeds `impl SandboxCapabilities for HostContext`, whose `invoke` calls
the dispatch thunk (a wasmtime `Func`) with four `i32` arguments and
demands exactly one `i64` result. The thunk itself is an oracle: any
function from an argument vector to either a trap message or a result
vector. -/

/-- Wasm values as far as this code inspects them (`wasmtime::Val`):
only the `I32` and `I64` cases are ever constructed or matched. -/
inductive WVal
  | I32 (v : Int)
  | I64 (v : Int)
deriving DecidableEq

/-- Two's-complement reinterpretation of an unsigned value as `i32`
(the `as i32` casts in `SandboxCapabilities::invoke`). -/
def toI32 (n : Nat) : Int :=
  if n % 2 ^ 32 < 2 ^ 31 then (n % 2 ^ 32 : Nat) else (n % 2 ^ 32 : Nat) - 2 ^ 32

/-- The argument vector `SandboxCapabilities::invoke` builds for the
dispatch thunk: arguments pointer, arguments length, opaque state token,
supervisor function index, each cast to `i32`. -/
def invokeArgs (invoke_args_ptr invoke_args_len state func_idx : Nat) : List WVal :=
  [WVal.I32 (toI32 invoke_args_ptr), WVal.I32 (toI32 invoke_args_len),
   WVal.I32 (toI32 state), WVal.I32 (toI32 func_idx)]

namespace SandboxCapabilities

/-- Embeds `SandboxCapabilities::invoke` for `HostContext`: call the
dispatch thunk with the four fixed arguments; a trap becomes an error,
a result vector of length other than one becomes an error, a single
non-`i64` result becomes an error, and a single `i64` result is returned
unchanged. -/
def invoke (dispatch_thunk : List WVal → Except String (List WVal))
    (invoke_args_ptr invoke_args_len state func_idx : Nat) :
    Except String Int :=
  match dispatch_thunk (invokeArgs invoke_args_ptr invoke_args_len state func_idx) with
  | .error err => .error err
  | .ok ret_vals =>
    if ret_vals.length ≠ 1 then
      .error "Supervisor function returned wrong number of results, expected 1"
    else
      match ret_vals with
      | [WVal.I64 v] => .ok v
      | _ => .error "Supervisor function returned unexpected result!"

end SandboxCapabilities

/-! ## Sandbox `instance_new`

Embeds `Sandbox::instance_new` for `HostContext`. The outer VM's
function table, the guest-environment decoder and the sandbox
instantiation routine are external collaborators, modelled as explicit
data / oracles. -/

/-- A wasmtime table entry (`wasmtime::Val`) as far as `instance_new`
inspects it: either a function reference (possibly null) or some other
kind of value. The function reference itself is an opaque token. -/
inductive WtVal
  | funcRef (f : Option Nat)
  | otherVal
deriving DecidableEq

/-- Instantiation failures of the sandbox store
(`sandbox::InstantiationError`). `instance_new` only distinguishes
`StartTrapped` from all the other variants, which are collapsed into
`Other`. -/
inductive InstantiationError
  | StartTrapped
  | Other
deriving DecidableEq

/-- Oracles for the external sandbox collaborators used by
`instance_new`: `GuestEnvironment::decode` (producing an opaque decoded
environment) and `sandbox::instantiate` followed by `register`
(producing the new instance index). -/
structure SandboxOracle where
  decodeEnv : List Nat → Option Nat
  instantiateModule : Nat → List Nat → Nat → Nat → Except InstantiationError Nat

/-- Embeds `Sandbox::instance_new`: extract the dispatch thunk from the
outer VM's function table at `dispatch_thunk_id` (each failure mode is a
distinct host-call error), then decode the environment definition
(failure is the in-band module-error status) and instantiate (a start
trap is the in-band execution-error status, any other failure the
module-error status). -/
def instance_new (O : SandboxOracle) (table : Option (List WtVal))
    (dispatch_thunk_id : Nat) (wasm raw_env_def : List Nat) (state : Nat) :
    Except String Nat :=
  match table with
  | none => .error "Runtime doesn't have a table; sandbox is unavailable"
  | some t =>
    match t[dispatch_thunk_id]? with
    | none => .error "dispatch_thunk_id is out of bounds"
    | some WtVal.otherVal => .error "dispatch_thunk_idx should be a funcref"
    | some (WtVal.funcRef none) => .error "dispatch_thunk_idx should point to actual func"
    | some (WtVal.funcRef (some dispatch_thunk)) =>
      match O.decodeEnv raw_env_def with
      | none => .ok ERR_MODULE
      | some guest_env =>
        match O.instantiateModule dispatch_thunk wasm guest_env state with
        | .ok instance_idx => .ok instance_idx
        | .error InstantiationError.StartTrapped => .ok ERR_EXECUTION
        | .error InstantiationError.Other => .ok ERR_MODULE

/-! ## The prefab wasm module and the module cache

`PrefabWasmModule` is embedded field by field from
`src/frame/contracts/src/wasm/mod.rs`. Code bytes are byte lists; the
content hash of the original code is modelled as the original bytes
themselves (a collision-free content-addressing function), since the
hash only ever serves as an injective cache key. -/

structure PrefabWasmModule where
  schedule_version : Nat
  initial : Nat
  maximum : Nat
  refcount : Nat
  _reserved : Option Unit
  code : List Nat
  original_code_len : Nat
  original_code : Option (List Nat)
  code_hash : List Nat
deriving DecidableEq

/-- Oracle for the instrumentation collaborator (`prepare_contract`):
`instrument code schedule` is the instrumented bytecode, and
`memLimits code` the initial/maximum page counts declared by the code. -/
structure PrepareOracle where
  instrument : List Nat → Nat → List Nat
  memLimits : List Nat → Nat × Nat

/-- Modelled from the spec: `PrefabWasmModule::from_code` /
`prepare::prepare_contract` (whose file is not in the excerpt) runs
instrumentation and produces a fresh, not-yet-persisted module with
reference count implicitly 0, the original code retained in memory, and
the content hash of the original code as its key. -/
def from_code (O : PrepareOracle) (original_code : List Nat) (schedule : Nat) :
    PrefabWasmModule :=
  { schedule_version := schedule
    initial := (O.memLimits original_code).1
    maximum := (O.memLimits original_code).2
    refcount := 0
    _reserved := none
    code := O.instrument original_code schedule
    original_code_len := original_code.length
    original_code := some original_code
    code_hash := original_code }

/-- The persistent module cache: the code storage map and the
original-code ("pristine") side table, both keyed by content hash. -/
structure CodeCache where
  codeStorage : List (List Nat × PrefabWasmModule)
  pristineCode : List (List Nat × List Nat)
deriving DecidableEq

def lookupAssoc {V : Type} : List (List Nat × V) → List Nat → Option V
  | [], _ => none
  | (k, v) :: rest, key => if key = k then some v else lookupAssoc rest key

def eraseAssoc {V : Type} (key : List Nat) : List (List Nat × V) → List (List Nat × V)
  | [] => []
  | (k, v) :: rest =>
    if key = k then eraseAssoc key rest else (k, v) :: eraseAssoc key rest

def insertAssoc {V : Type} (key : List Nat) (v : V) (l : List (List Nat × V)) :
    List (List Nat × V) :=
  (key, v) :: eraseAssoc key l

/-- Failure modes of the module cache, per the spec: storage-not-found
is distinct from instrumentation failure. -/
inductive CacheError
  | CodeNotFound
  | InstrumentFailed
deriving DecidableEq

/-- Modelled from the spec: `code_cache::store` (its file is not in the
excerpt) persists a freshly created or refcount-adjusted module,
setting a freshly created module's use count to 1 the first time it is
stored; the in-memory original code goes to the pristine side table and
is not serialized with the module itself. -/
def cc_store (m : PrefabWasmModule) (c : CodeCache) : CodeCache :=
  let m1 := if m.refcount = 0 then { m with refcount := 1 } else m
  { codeStorage := insertAssoc m1.code_hash { m1 with original_code := none } c.codeStorage
    pristineCode :=
      (match m1.original_code with
       | some oc => insertAssoc m1.code_hash oc c.pristineCode
       | none => c.pristineCode) }

/-- Modelled from the spec: `code_cache::load` fetches instrumented
bytes plus metadata from storage (not-found is a distinct error),
sets the in-memory `code_hash` from the key, and — when a schedule
newer than the stored version is supplied — re-instruments from the
pristine code and persists the updated module before returning. -/
def cc_load (O : PrepareOracle) (code_hash : List Nat) (schedule : Option Nat)
    (c : CodeCache) : Except CacheError (PrefabWasmModule × CodeCache) :=
  match lookupAssoc c.codeStorage code_hash with
  | none => .error CacheError.CodeNotFound
  | some m0 =>
    let m := { m0 with code_hash := code_hash }
    match schedule with
    | none => .ok (m, c)
    | some s =>
      if m.schedule_version < s then
        match lookupAssoc c.pristineCode code_hash with
        | none => .error CacheError.CodeNotFound
        | some orig =>
          let m1 := { m with schedule_version := s, code := O.instrument orig s }
          .ok (m1, { c with codeStorage := insertAssoc code_hash m1 c.codeStorage })
      else .ok (m, c)

/-- Modelled from the spec: `code_cache::increment_refcount`, a
load-mutate-store helper attaching one more user to a stored code hash. -/
def increment_refcount (code_hash : List Nat) (c : CodeCache) :
    Except CacheError CodeCache :=
  match lookupAssoc c.codeStorage code_hash with
  | none => .error CacheError.CodeNotFound
  | some m =>
    .ok { c with codeStorage :=
            (insertAssoc code_hash { m with refcount := m.refcount + 1 } c.codeStorage) }

/-- Modelled from the spec: `code_cache::decrement_refcount`, a
load-mutate-store helper detaching one user; when the count reaches 0
the module and its original-code side-table entry are deleted
(garbage collection). Its caller `remove_user` ignores failures. -/
def decrement_refcount (code_hash : List Nat) (c : CodeCache) : CodeCache :=
  match lookupAssoc c.codeStorage code_hash with
  | none => c
  | some m =>
    if m.refcount ≤ 1 then
      { codeStorage := eraseAssoc code_hash c.codeStorage
        pristineCode := eraseAssoc code_hash c.pristineCode }
    else
      { c with codeStorage :=
          (insertAssoc code_hash { m with refcount := m.refcount - 1 } c.codeStorage) }

/-- Modelled from the spec: `code_cache::store_decremented` decrements
the reference count of an already-loaded module and persists it; at 0
it deletes the module and its original-code side table entirely. -/
def store_decremented (m : PrefabWasmModule) (c : CodeCache) : CodeCache :=
  if m.refcount ≤ 1 then
    { codeStorage := eraseAssoc m.code_hash c.codeStorage
      pristineCode := eraseAssoc m.code_hash c.pristineCode }
  else
    cc_store { m with refcount := m.refcount - 1 } c

/-! ## `occupied_storage`

Embedded from `Executable::occupied_storage` in
`src/frame/contracts/src/wasm/mod.rs`: a `u32` saturating addition of the
original code length and the (truncated) instrumented code length,
divided — with a checked division — by the refcount truncated to `u32`. -/

def u32_saturating_add (a b : Nat) : Nat :=
  min (a + b) (2 ^ 32 - 1)

def u32_checked_div (a b : Nat) : Option Nat :=
  if b = 0 then none else some (a / b)

def occupied_storage (m : PrefabWasmModule) : Nat :=
  let len := u32_saturating_add m.original_code_len (m.code.length % 2 ^ 32)
  (u32_checked_div len (m.refcount % 2 ^ 32)).getD len

/-! ## Execution driver

Embeds `Executable::execute` from `src/frame/contracts/src/wasm/mod.rs`.
The outer guest memory construction (`sp_sandbox::Memory::new`) and the
instantiate-and-invoke step (`sp_sandbox::Instance::new` + `invoke`) are
external collaborators; the latter is an oracle receiving the module
cache in force at the moment it runs, which is what makes the
store-before-invoke ordering observable. -/

/-- The exported functions of a contract module and their wasm export
names (`ExportedFunction::identifier`). -/
inductive ExportedFunction
  | Constructor
  | Call
deriving DecidableEq

def ExportedFunction.identifier : ExportedFunction → String
  | ExportedFunction.Constructor => "deploy"
  | ExportedFunction.Call => "call"

/-- Modelled from the spec: `sp_sandbox::Memory::new` (not in the
excerpt) allocates a guest memory with the given initial/maximum page
counts and fails if `initial > maximum` (host allocation failure is out
of scope of the model). -/
def sandbox_memory_new (initial maximum : Nat) : Option (Nat × Nat) :=
  if initial ≤ maximum then some (initial, maximum) else none

/-- Outcome of one `execute` call: either the explicit panic the source
raises when the outer guest memory cannot be built, or the (opaque)
execution result produced by instantiating and invoking the export. -/
inductive ExecOutcome
  | panicked
  | result (r : Nat)
deriving DecidableEq

/-- Oracle for `sp_sandbox::Instance::new` + `invoke`: given the module
cache in force when the export runs, the instrumented code and the
export name, produce an opaque execution result. -/
structure ExecOracle where
  run : CodeCache → List Nat → String → Nat

/-- Embeds `Executable::execute`: build the outer guest memory (panic on
failure), then — for the constructor only — persist the module into the
code cache before instantiating and invoking the export. -/
def execute (m : PrefabWasmModule) (function : ExportedFunction)
    (cache : CodeCache) (O : ExecOracle) : ExecOutcome × CodeCache :=
  match sandbox_memory_new m.initial m.maximum with
  | none => (ExecOutcome.panicked, cache)
  | some _memory =>
    let code := m.code
    let cache1 :=
      match function with
      | ExportedFunction.Constructor => cc_store m cache
      | ExportedFunction.Call => cache
    (ExecOutcome.result (O.run cache1 code function.identifier), cache1)

/-! ## Claim theorems -/

/-- C1: For all unsigned `(offset, length, capacity)`, the bounds check
through which every sandbox memory access is routed accepts and yields
the half-open range `[offset, offset+length)` iff `offset + length` does
not overflow and `offset + length ≤ capacity`; in particular the
boundary cases `length = 0` (with `offset ≤ capacity`) and
`offset + length = capacity` are both accepted. -/
theorem checked_range_bounds_spec (offset len capacity : Nat)
    (hcap : capacity < USIZE_BOUND) :
    (checked_range offset len capacity = some (offset, offset + len)
        ↔ offset + len < USIZE_BOUND ∧ offset + len ≤ capacity)
    ∧ (∀ r, checked_range offset len capacity = some r → r = (offset, offset + len))
    ∧ (offset ≤ capacity → checked_range offset 0 capacity = some (offset, offset))
    ∧ (offset + len = capacity →
        checked_range offset len capacity = some (offset, capacity)) := by
  refine ⟨?_, ?_, ?_, ?_⟩
  · by_cases h1 : offset + len ≤ capacity
    · rw [checked_range_eq_some offset len capacity h1 hcap]
      exact iff_of_true rfl ⟨lt_of_le_of_lt h1 hcap, h1⟩
    · rw [checked_range_eq_none offset len capacity (by omega)]
      exact iff_of_false (by simp) (fun h => h1 h.2)
  · intro r hr
    by_cases h1 : offset + len ≤ capacity
    · rw [checked_range_eq_some offset len capacity h1 hcap] at hr
      simpa using hr.symm
    · rw [checked_range_eq_none offset len capacity (by omega)] at hr
      exact absurd hr (by simp)
  · intro h0
    have h := checked_range_eq_some offset 0 capacity (by omega) hcap
    simpa using h
  · intro heq
    have h := checked_range_eq_some offset len capacity (le_of_eq heq) hcap
    rw [h, heq]

theorem checked_range_bounds_spec_witness :
    checked_range 2 3 5 = some (2, 5) :=
  (checked_range_bounds_spec 2 3 5 (by norm_num [USIZE_BOUND])).2.2.2 (by norm_num)

/-- C10: `occupied_storage` is total: it computes the saturating `u32`
sum of `original_code_len` and the (truncated) instrumented code length,
divides it by the refcount truncated to `u32` when that truncation is
nonzero, and returns the undivided sum when the truncated refcount is
zero (including a refcount of exactly 0); the result always fits in a
`u32`. -/
theorem occupied_storage_total (m : PrefabWasmModule) :
    occupied_storage m
      = (if m.refcount % 2 ^ 32 = 0
         then min (m.original_code_len + m.code.length % 2 ^ 32) (2 ^ 32 - 1)
         else min (m.original_code_len + m.code.length % 2 ^ 32) (2 ^ 32 - 1)
              / (m.refcount % 2 ^ 32))
    ∧ occupied_storage m < 2 ^ 32
    ∧ (m.refcount = 0 →
        occupied_storage m
          = min (m.original_code_len + m.code.length % 2 ^ 32) (2 ^ 32 - 1)) := by
  have hchar : occupied_storage m
      = (if m.refcount % 2 ^ 32 = 0
         then min (m.original_code_len + m.code.length % 2 ^ 32) (2 ^ 32 - 1)
         else min (m.original_code_len + m.code.length % 2 ^ 32) (2 ^ 32 - 1)
              / (m.refcount % 2 ^ 32)) := by
    by_cases h0 : m.refcount % 2 ^ 32 = 0
    · norm_num at h0
      simp [occupied_storage, u32_checked_div, u32_saturating_add, h0]
    · norm_num at h0
      simp [occupied_storage, u32_checked_div, u32_saturating_add, h0]
  refine ⟨hchar, ?_, ?_⟩
  · rw [hchar]
    by_cases h0 : m.refcount % 2 ^ 32 = 0
    · rw [if_pos h0]
      omega
    · rw [if_neg h0]
      have hd := Nat.div_le_self
        (min (m.original_code_len + m.code.length % 2 ^ 32) (2 ^ 32 - 1))
        (m.refcount % 2 ^ 32)
      omega
  · intro h0
    rw [hchar, if_pos (by simp [h0])]

/-- C5: the reentrant supervisor dispatch `SandboxCapabilities::invoke`
always calls the dispatch thunk with exactly the four fixed arguments
(arguments pointer, arguments length, opaque state token, function
index) — its result depends on the thunk only through its value at that
argument vector — and it returns an error whenever the thunk traps or
produces anything other than exactly one 64-bit integer result; a single
64-bit result is returned unchanged. -/
theorem sandbox_capabilities_invoke_spec
    (thunk : List WVal → Except String (List WVal)) (p l s f : Nat) :
    (invokeArgs p l s f).length = 4
    ∧ (∀ thunk2 : List WVal → Except String (List WVal),
        thunk (invokeArgs p l s f) = thunk2 (invokeArgs p l s f) →
        SandboxCapabilities.invoke thunk p l s f
          = SandboxCapabilities.invoke thunk2 p l s f)
    ∧ (∀ e, thunk (invokeArgs p l s f) = .error e →
        SandboxCapabilities.invoke thunk p l s f = .error e)
    ∧ (∀ rets, thunk (invokeArgs p l s f) = .ok rets → rets.length ≠ 1 →
        ∃ e, SandboxCapabilities.invoke thunk p l s f = .error e)
    ∧ (∀ r, thunk (invokeArgs p l s f) = .ok [r] → (∀ v, r ≠ WVal.I64 v) →
        ∃ e, SandboxCapabilities.invoke thunk p l s f = .error e)
    ∧ (∀ v, thunk (invokeArgs p l s f) = .ok [WVal.I64 v] →
        SandboxCapabilities.invoke thunk p l s f = .ok v) := by
  refine ⟨rfl, ?_, ?_, ?_, ?_, ?_⟩
  · intro thunk2 heq
    unfold SandboxCapabilities.invoke
    rw [heq]
  · intro e he
    unfold SandboxCapabilities.invoke
    rw [he]
  · intro rets hr hlen
    unfold SandboxCapabilities.invoke
    rw [hr]
    simp [hlen]
  · intro r hr hnot
    unfold SandboxCapabilities.invoke
    rw [hr]
    cases r with
    | I32 v => simp
    | I64 v => exact absurd rfl (hnot v)
  · intro v hv
    unfold SandboxCapabilities.invoke
    rw [hv]
    simp

theorem sandbox_capabilities_invoke_spec_witness :
    SandboxCapabilities.invoke (fun _ => .ok [WVal.I64 7]) 1 2 3 4 = .ok 7
    ∧ SandboxCapabilities.invoke (fun _ => .error "trapped") 1 2 3 4
        = .error "trapped" :=
  ⟨(sandbox_capabilities_invoke_spec (fun _ => .ok [WVal.I64 7]) 1 2 3 4).2.2.2.2.2 7 rfl,
   (sandbox_capabilities_invoke_spec (fun _ => .error "trapped") 1 2 3 4).2.2.1 "trapped" rfl⟩

/-- C2: for every `memory_get` / `memory_set` call on a live guest
memory, if either the guest-memory range or the supervisor-memory range
fails its bounds check, the operation returns the out-of-bounds status
code as a normal return value (`.ok`, never a host-call error), and
both the guest memories and the supervisor memory are left unchanged. -/
theorem memory_get_set_out_of_bounds (st : HostSt) (memory_id offset ptr len : Nat)
    (gm : List Nat) (hmem : st.guestMems[memory_id]? = some gm) :
    (checked_range offset len gm.length = none
        ∨ checked_range ptr len st.supervisor.length = none →
      memory_get st memory_id offset ptr len = .ok (ERR_OUT_OF_BOUNDS, st))
    ∧ (checked_range ptr len st.supervisor.length = none
        ∨ checked_range offset len gm.length = none →
      memory_set st memory_id offset ptr len = .ok (ERR_OUT_OF_BOUNDS, st)) := by
  constructor
  · intro h
    unfold memory_get
    rw [hmem]
    dsimp only
    cases hg : checked_range offset len gm.length with
    | none => rfl
    | some r1 =>
      dsimp only
      cases hs : checked_range ptr len st.supervisor.length with
      | none => rfl
      | some r2 =>
        rcases h with h | h
        · rw [h] at hg
          simp at hg
        · rw [h] at hs
          simp at hs
  · intro h
    unfold memory_set
    rw [hmem]
    dsimp only
    cases hs : checked_range ptr len st.supervisor.length with
    | none => rfl
    | some r1 =>
      dsimp only
      cases hg : checked_range offset len gm.length with
      | none => rfl
      | some r2 =>
        rcases h with h | h
        · rw [h] at hs
          simp at hs
        · rw [h] at hg
          simp at hg

theorem memory_get_set_out_of_bounds_witness :
    memory_get ⟨[[9, 9, 9, 9]], [1, 2, 3, 4]⟩ 0 3 0 2
      = .ok (ERR_OUT_OF_BOUNDS, ⟨[[9, 9, 9, 9]], [1, 2, 3, 4]⟩)
    ∧ memory_get ⟨[[9, 9, 9, 9]], [1, 2, 3, 4]⟩ 0 0 3 2
      = .ok (ERR_OUT_OF_BOUNDS, ⟨[[9, 9, 9, 9]], [1, 2, 3, 4]⟩)
    ∧ memory_set ⟨[[9, 9, 9, 9]], [1, 2, 3, 4]⟩ 0 3 0 2
      = .ok (ERR_OUT_OF_BOUNDS, ⟨[[9, 9, 9, 9]], [1, 2, 3, 4]⟩)
    ∧ memory_set ⟨[[9, 9, 9, 9]], [1, 2, 3, 4]⟩ 0 0 3 2
      = .ok (ERR_OUT_OF_BOUNDS, ⟨[[9, 9, 9, 9]], [1, 2, 3, 4]⟩) :=
  ⟨(memory_get_set_out_of_bounds ⟨[[9, 9, 9, 9]], [1, 2, 3, 4]⟩ 0 3 0 2 [9, 9, 9, 9]
      rfl).1 (Or.inl (by decide)),
   (memory_get_set_out_of_bounds ⟨[[9, 9, 9, 9]], [1, 2, 3, 4]⟩ 0 0 3 2 [9, 9, 9, 9]
      rfl).1 (Or.inr (by decide)),
   (memory_get_set_out_of_bounds ⟨[[9, 9, 9, 9]], [1, 2, 3, 4]⟩ 0 3 0 2 [9, 9, 9, 9]
      rfl).2 (Or.inr (by decide)),
   (memory_get_set_out_of_bounds ⟨[[9, 9, 9, 9]], [1, 2, 3, 4]⟩ 0 0 3 2 [9, 9, 9, 9]
      rfl).2 (Or.inl (by decide))⟩

/-- C3 counterexample: with an empty function table, a dispatch-thunk
index of 0 points past the end of the table, and `instance_new` does
NOT return the module-error status as the claim states: it fails with
the distinct host-call error for an out-of-bounds dispatch index. -/
theorem instance_new_oob_counterexample :
    instance_new ⟨fun _ => none, fun _ _ _ _ => .ok 0⟩ (some []) 0 [] [] 0
        ≠ .ok ERR_MODULE
    ∧ instance_new ⟨fun _ => none, fun _ _ _ _ => .ok 0⟩ (some []) 0 [] [] 0
        = .error "dispatch_thunk_id is out of bounds" :=
  ⟨fun h => Except.noConfusion h, rfl⟩

/-- C3 (amended): when the dispatch-thunk table index points past the
end of the outer VM's function table, `instance_new` ends with the
distinct host-call error "dispatch_thunk_id is out of bounds" (an error
value returned to the supervisor call, not a process abort and not the
module-error status); the no-table, not-a-funcref and null-entry cases
likewise end with their own distinct host-call errors. -/
theorem instance_new_table_failures (O : SandboxOracle) (t : List WtVal)
    (id : Nat) (wasm red : List Nat) (state : Nat) :
    (t.length ≤ id →
      instance_new O (some t) id wasm red state
        = .error "dispatch_thunk_id is out of bounds")
    ∧ instance_new O none id wasm red state
        = .error "Runtime doesn't have a table; sandbox is unavailable"
    ∧ (t[id]? = some WtVal.otherVal →
      instance_new O (some t) id wasm red state
        = .error "dispatch_thunk_idx should be a funcref")
    ∧ (t[id]? = some (WtVal.funcRef none) →
      instance_new O (some t) id wasm red state
        = .error "dispatch_thunk_idx should point to actual func") := by
  refine ⟨?_, rfl, ?_, ?_⟩
  · intro hlen
    unfold instance_new
    dsimp only
    rw [List.getElem?_eq_none hlen]
  · intro hitem
    unfold instance_new
    dsimp only
    rw [hitem]
  · intro hitem
    unfold instance_new
    dsimp only
    rw [hitem]

theorem instance_new_table_failures_witness :
    instance_new ⟨fun _ => none, fun _ _ _ _ => .ok 0⟩ (some [WtVal.otherVal]) 3 [] [] 0
        = .error "dispatch_thunk_id is out of bounds"
    ∧ instance_new ⟨fun _ => none, fun _ _ _ _ => .ok 0⟩ (some [WtVal.otherVal]) 0 [] [] 0
        = .error "dispatch_thunk_idx should be a funcref"
    ∧ instance_new ⟨fun _ => none, fun _ _ _ _ => .ok 0⟩
        (some [WtVal.funcRef none]) 0 [] [] 0
        = .error "dispatch_thunk_idx should point to actual func" :=
  ⟨(instance_new_table_failures ⟨fun _ => none, fun _ _ _ _ => .ok 0⟩
      [WtVal.otherVal] 3 [] [] 0).1 (by decide),
   (instance_new_table_failures ⟨fun _ => none, fun _ _ _ _ => .ok 0⟩
      [WtVal.otherVal] 0 [] [] 0).2.2.1 (by decide),
   (instance_new_table_failures ⟨fun _ => none, fun _ _ _ _ => .ok 0⟩
      [WtVal.funcRef none] 0 [] [] 0).2.2.2 (by decide)⟩

/-- C4: in `instance_new`, once a dispatch thunk has been extracted, a
failure to decode the raw environment definition makes the host call
return the module-error status as an ordinary successful (`.ok`) return
value; a trap in the guest module's start function yields the
execution-error status, which is distinct from the module-error status
returned for every other instantiation failure. -/
theorem instance_new_decode_and_start_errors (O : SandboxOracle)
    (t : List WtVal) (id f : Nat) (wasm red : List Nat) (state : Nat)
    (hitem : t[id]? = some (WtVal.funcRef (some f))) :
    (O.decodeEnv red = none →
      instance_new O (some t) id wasm red state = .ok ERR_MODULE)
    ∧ (∀ env, O.decodeEnv red = some env →
        O.instantiateModule f wasm env state = .error InstantiationError.StartTrapped →
        instance_new O (some t) id wasm red state = .ok ERR_EXECUTION)
    ∧ (∀ env, O.decodeEnv red = some env →
        O.instantiateModule f wasm env state = .error InstantiationError.Other →
        instance_new O (some t) id wasm red state = .ok ERR_MODULE)
    ∧ ERR_EXECUTION ≠ ERR_MODULE := by
  refine ⟨?_, ?_, ?_, by decide⟩
  · intro hdec
    unfold instance_new
    dsimp only
    rw [hitem]
    dsimp only
    rw [hdec]
  · intro env hdec hinst
    unfold instance_new
    dsimp only
    rw [hitem]
    dsimp only
    rw [hdec]
    dsimp only
    rw [hinst]
  · intro env hdec hinst
    unfold instance_new
    dsimp only
    rw [hitem]
    dsimp only
    rw [hdec]
    dsimp only
    rw [hinst]

theorem instance_new_decode_and_start_errors_witness :
    instance_new ⟨fun _ => none, fun _ _ _ _ => .ok 0⟩
        (some [WtVal.funcRef (some 5)]) 0 [] [] 0 = .ok ERR_MODULE
    ∧ instance_new ⟨fun _ => some 0, fun _ _ _ _ => .error InstantiationError.StartTrapped⟩
        (some [WtVal.funcRef (some 5)]) 0 [] [] 0 = .ok ERR_EXECUTION
    ∧ instance_new ⟨fun _ => some 0, fun _ _ _ _ => .error InstantiationError.Other⟩
        (some [WtVal.funcRef (some 5)]) 0 [] [] 0 = .ok ERR_MODULE :=
  ⟨(instance_new_decode_and_start_errors ⟨fun _ => none, fun _ _ _ _ => .ok 0⟩
      [WtVal.funcRef (some 5)] 0 5 [] [] 0 rfl).1 rfl,
   (instance_new_decode_and_start_errors
      ⟨fun _ => some 0, fun _ _ _ _ => .error InstantiationError.StartTrapped⟩
      [WtVal.funcRef (some 5)] 0 5 [] [] 0 rfl).2.1 0 rfl rfl,
   (instance_new_decode_and_start_errors
      ⟨fun _ => some 0, fun _ _ _ _ => .error InstantiationError.Other⟩
      [WtVal.funcRef (some 5)] 0 5 [] [] 0 rfl).2.2.1 0 rfl rfl⟩

theorem lookupAssoc_insertAssoc {V : Type} (k : List Nat) (v : V)
    (l : List (List Nat × V)) : lookupAssoc (insertAssoc k v l) k = some v := by
  simp [insertAssoc, lookupAssoc]

/-- C6: in `execute`, when the invoked export is the constructor, the
module is persisted into the module cache strictly before the export is
instantiated and invoked — the instantiate-and-invoke step observes the
cache with the module already stored (under the module's code hash, with
its instrumented bytes) — whereas for the regular call the module is not
stored by `execute` and the step observes the unchanged cache. -/
theorem execute_stores_constructor_module_first (m : PrefabWasmModule)
    (cache : CodeCache) (O : ExecOracle) (hmm : m.initial ≤ m.maximum) :
    execute m ExportedFunction.Constructor cache O
      = (ExecOutcome.result (O.run (cc_store m cache) m.code "deploy"), cc_store m cache)
    ∧ Option.map PrefabWasmModule.code
        (lookupAssoc (cc_store m cache).codeStorage m.code_hash) = some m.code
    ∧ execute m ExportedFunction.Call cache O
      = (ExecOutcome.result (O.run cache m.code "call"), cache) := by
  have hmem : sandbox_memory_new m.initial m.maximum = some (m.initial, m.maximum) := by
    unfold sandbox_memory_new
    rw [if_pos hmm]
  refine ⟨?_, ?_, ?_⟩
  · unfold execute
    rw [hmem]
    dsimp only [ExportedFunction.identifier]
  · unfold cc_store
    by_cases h0 : m.refcount = 0
    · simp only [h0, if_pos]
      simp [lookupAssoc_insertAssoc]
    · rw [if_neg h0]
      simp [lookupAssoc_insertAssoc]
  · unfold execute
    rw [hmem]
    dsimp only [ExportedFunction.identifier]

theorem execute_stores_constructor_module_first_witness :
    execute ⟨5, 1, 2, 0, none, [1, 2], 1, some [9], [9]⟩
        ExportedFunction.Constructor ⟨[], []⟩ ⟨fun c _ _ => c.codeStorage.length⟩
      = (ExecOutcome.result
           ((⟨fun c _ _ => c.codeStorage.length⟩ : ExecOracle).run
             (cc_store ⟨5, 1, 2, 0, none, [1, 2], 1, some [9], [9]⟩ ⟨[], []⟩) [1, 2] "deploy"),
         cc_store ⟨5, 1, 2, 0, none, [1, 2], 1, some [9], [9]⟩ ⟨[], []⟩)
    ∧ Option.map PrefabWasmModule.code
        (lookupAssoc
          (cc_store ⟨5, 1, 2, 0, none, [1, 2], 1, some [9], [9]⟩ ⟨[], []⟩).codeStorage [9])
        = some [1, 2]
    ∧ execute ⟨5, 1, 2, 0, none, [1, 2], 1, some [9], [9]⟩
        ExportedFunction.Call ⟨[], []⟩ ⟨fun c _ _ => c.codeStorage.length⟩
      = (ExecOutcome.result 0, ⟨[], []⟩) :=
  ⟨(execute_stores_constructor_module_first ⟨5, 1, 2, 0, none, [1, 2], 1, some [9], [9]⟩
      ⟨[], []⟩ ⟨fun c _ _ => c.codeStorage.length⟩ (by decide)).1,
   (execute_stores_constructor_module_first ⟨5, 1, 2, 0, none, [1, 2], 1, some [9], [9]⟩
      ⟨[], []⟩ ⟨fun c _ _ => c.codeStorage.length⟩ (by decide)).2.1,
   (execute_stores_constructor_module_first ⟨5, 1, 2, 0, none, [1, 2], 1, some [9], [9]⟩
      ⟨[], []⟩ ⟨fun c _ _ => c.codeStorage.length⟩ (by decide)).2.2⟩

/-- C7: under the module-cache invariant `initial ≤ maximum`, the
construction of the outer guest memory at the start of `execute` cannot
fail and `execute` does not panic there; when it does fail
(`maximum < initial`) `execute` ends in the explicit panic — the fatal
internal-consistency outcome, which in particular is not the
`ExecOutcome.result` constructor carrying user-facing outcomes — and
nothing is stored. -/
theorem execute_memory_construction (m : PrefabWasmModule)
    (f : ExportedFunction) (cache : CodeCache) (O : ExecOracle) :
    (m.initial ≤ m.maximum → (execute m f cache O).1 ≠ ExecOutcome.panicked)
    ∧ (m.maximum < m.initial →
        execute m f cache O = (ExecOutcome.panicked, cache)) := by
  constructor
  · intro hmm
    have hmem : sandbox_memory_new m.initial m.maximum = some (m.initial, m.maximum) := by
      unfold sandbox_memory_new
      rw [if_pos hmm]
    unfold execute
    rw [hmem]
    dsimp only
    cases f <;> simp
  · intro hgt
    have hmem : sandbox_memory_new m.initial m.maximum = none := by
      unfold sandbox_memory_new
      rw [if_neg (by omega)]
    unfold execute
    rw [hmem]

theorem execute_memory_construction_witness :
    (execute ⟨0, 1, 2, 0, none, [], 0, none, []⟩ ExportedFunction.Call ⟨[], []⟩
        ⟨fun _ _ _ => 0⟩).1 ≠ ExecOutcome.panicked
    ∧ execute ⟨0, 2, 1, 0, none, [], 0, none, []⟩ ExportedFunction.Call ⟨[], []⟩
        ⟨fun _ _ _ => 0⟩ = (ExecOutcome.panicked, ⟨[], []⟩) :=
  ⟨(execute_memory_construction ⟨0, 1, 2, 0, none, [], 0, none, []⟩
      ExportedFunction.Call ⟨[], []⟩ ⟨fun _ _ _ => 0⟩).1 (by decide),
   (execute_memory_construction ⟨0, 2, 1, 0, none, [], 0, none, []⟩
      ExportedFunction.Call ⟨[], []⟩ ⟨fun _ _ _ => 0⟩).2 (by decide)⟩

/-- C8: module-cache reference-count lifecycle. Storing a freshly
compiled module (`store (from_code code schedule)`) and loading it by
the content hash of the original code returns a module whose
instrumented bytes match the stored ones and whose reference count is 1;
one `increment_refcount` followed by two `decrement_refcount` calls on
that freshly stored module drives the count to 0, which deletes the
module and its original-code side-table entry, so a subsequent load
fails with not-found. -/
theorem module_cache_refcount_lifecycle (O : PrepareOracle) (code : List Nat)
    (schedule : Nat) :
    Except.map (fun p => (p.1.code, p.1.refcount))
        (cc_load O code (some schedule)
          (cc_store (from_code O code schedule) ⟨[], []⟩))
      = .ok ((from_code O code schedule).code, 1)
    ∧ Except.map (fun c2 => decrement_refcount code (decrement_refcount code c2))
        (increment_refcount code (cc_store (from_code O code schedule) ⟨[], []⟩))
      = .ok ⟨[], []⟩
    ∧ Except.map
        (fun c2 => cc_load O code (some schedule)
          (decrement_refcount code (decrement_refcount code c2)))
        (increment_refcount code (cc_store (from_code O code schedule) ⟨[], []⟩))
      = .ok (.error CacheError.CodeNotFound) := by
  refine ⟨?_, ?_, ?_⟩ <;>
    simp [cc_store, from_code, cc_load, increment_refcount, decrement_refcount,
      insertAssoc, eraseAssoc, lookupAssoc, Except.map]

/-- C9: sandbox memory copy round-trip. For every live guest memory
handle, offset `o` and byte count `n` for which the guest range and both
supervisor ranges are in bounds, `memory_set` copying `n` bytes from
supervisor memory at `val_ptr` into the guest memory at `o`, followed by
`memory_get` copying `n` bytes from `o` back into supervisor memory at
`buf_ptr`, succeeds with the OK status twice and yields exactly the `n`
bytes originally written (including the case `n = 0`). -/
theorem memory_set_get_roundtrip (st : HostSt) (memory_id o val_ptr buf_ptr n : Nat)
    (gm : List Nat) (hmem : st.guestMems[memory_id]? = some gm)
    (hg : o + n ≤ gm.length) (hs1 : val_ptr + n ≤ st.supervisor.length)
    (hs2 : buf_ptr + n ≤ st.supervisor.length)
    (hgb : gm.length < USIZE_BOUND) (hsb : st.supervisor.length < USIZE_BOUND) :
    Except.bind (memory_set st memory_id o val_ptr n) (fun r1 =>
      Except.map (fun r2 => (r1.1, r2.1, listSlice r2.2.supervisor buf_ptr n))
        (memory_get r1.2 memory_id o buf_ptr n))
      = .ok (ERR_OK, ERR_OK, listSlice st.supervisor val_ptr n) := by
  have hoo : o + n - o = n := by omega
  set B := listSlice st.supervisor val_ptr n with hB
  have hBlen : B.length = n := listSlice_length _ _ _ hs1
  set gm1 := writeBytes gm o B with hgm1
  have hset : memory_set st memory_id o val_ptr n
      = .ok (ERR_OK, ⟨st.guestMems.set memory_id gm1, st.supervisor⟩) := by
    unfold memory_set
    rw [hmem]
    dsimp only
    rw [checked_range_eq_some val_ptr n st.supervisor.length hs1 hsb]
    dsimp only
    rw [checked_range_eq_some o n gm.length hg hgb]
    dsimp only
    rw [hoo, ← hB, ← hgm1]
  have hmlt : memory_id < st.guestMems.length := (List.getElem?_eq_some.mp hmem).1
  have hmem1 : (st.guestMems.set memory_id gm1)[memory_id]? = some gm1 :=
    List.getElem?_set_self hmlt
  have hgm1len : gm1.length = gm.length := by
    rw [hgm1]
    exact writeBytes_length gm o B (by omega)
  have hget : memory_get (HostSt.mk (st.guestMems.set memory_id gm1) st.supervisor)
      memory_id o buf_ptr n
      = .ok (ERR_OK,
          ⟨st.guestMems.set memory_id gm1,
           writeBytes st.supervisor buf_ptr (listSlice gm1 o n)⟩) := by
    unfold memory_get
    dsimp only
    rw [hmem1]
    dsimp only
    rw [hgm1len, checked_range_eq_some o n gm.length hg hgb]
    dsimp only
    rw [checked_range_eq_some buf_ptr n st.supervisor.length hs2 hsb]
    dsimp only
    rw [hoo]
  have h1 : listSlice gm1 o n = B := by
    rw [hgm1, ← hBlen]
    exact listSlice_writeBytes_self gm o B (by omega)
  have h2 : listSlice (writeBytes st.supervisor buf_ptr B) buf_ptr n = B := by
    rw [← hBlen]
    exact listSlice_writeBytes_self st.supervisor buf_ptr B (by omega)
  rw [hset]
  dsimp only [Except.bind]
  rw [hget]
  dsimp only [Except.map]
  rw [h1, h2]

theorem memory_set_get_roundtrip_witness :
    Except.bind (memory_set ⟨[[9, 9, 9, 9]], [1, 2, 3, 4]⟩ 0 1 0 2) (fun r1 =>
      Except.map (fun r2 => (r1.1, r2.1, listSlice r2.2.supervisor 2 2))
        (memory_get r1.2 0 1 2 2))
      = .ok (ERR_OK, ERR_OK, listSlice [1, 2, 3, 4] 0 2) :=
  memory_set_get_roundtrip ⟨[[9, 9, 9, 9]], [1, 2, 3, 4]⟩ 0 1 0 2 2 [9, 9, 9, 9]
    rfl (by decide) (by decide) (by decide)
    (by norm_num [USIZE_BOUND]) (by norm_num [USIZE_BOUND])
